import Mathlib

/-!
Shallow embedding of `src/wire/ipv6option.rs` from the smoltcp repository:
a zero-copy codec for a single IPv6 Extension Header Option (RFC 8200 §4.2).

Buffers are modelled as `List Nat` of byte values.  A Rust operation that can
panic (out-of-bounds indexing, `copy_from_slice` length mismatch) is modelled
as an `Option`-valued function returning `none` exactly when the Rust code
would panic.  The recoverable error path (`Error::Truncated`) is modelled with
`Except`.
-/

namespace Ipv6Wire

/-- `enum Error` (only the `Truncated` variant is used by this module). -/
inductive Error where
  | Truncated
deriving DecidableEq

/-- `type Result<T> = core::result::Result<T, Error>` -/
abbrev Result (α : Type) := Except Error α

instance {α : Type} [DecidableEq α] : DecidableEq (Except Error α) := fun a b =>
  match a, b with
  | .ok x, .ok y =>
      if h : x = y then .isTrue (by rw [h]) else .isFalse (by simp [h])
  | .error .Truncated, .error .Truncated => .isTrue rfl
  | .ok _, .error _ => .isFalse (by simp)
  | .error _, .ok _ => .isFalse (by simp)

/-- `enum_with_unknown! { pub doc enum Type(u8) { Pad1 = 0, PadN = 1 } }` -/
inductive Type' where
  | Pad1
  | PadN
  | Unknown (id : Nat)
deriving DecidableEq

/-- `impl From<u8> for Type`: 0 ↦ Pad1, 1 ↦ PadN, anything else ↦ Unknown. -/
def Type'.ofNat : Nat → Type'
  | 0 => .Pad1
  | 1 => .PadN
  | n => .Unknown n

/-- `impl From<Type> for u8`: Pad1 ↦ 0, PadN ↦ 1, Unknown(id) ↦ id. -/
def Type'.intoNat : Type' → Nat
  | .Pad1 => 0
  | .PadN => 1
  | .Unknown id => id

namespace field

/-- 8-bit identifier of the type of option (`pub const TYPE: usize = 0`). -/
def TYPE : Nat := 0

/-- Length of the DATA field of this option (`pub const LENGTH: usize = 1`). -/
def LENGTH : Nat := 1

/-- Start of `pub fn DATA(length: u8) -> Field { 2..length as usize + 2 }`. -/
def DATA_start (_length : Nat) : Nat := 2

/-- End of `pub fn DATA(length: u8) -> Field { 2..length as usize + 2 }`. -/
def DATA_end (length : Nat) : Nat := length + 2

end field

/-- `Ipv6Option::check_len`: `Err(Truncated)` if the buffer is too short.
Reads `data[field::LENGTH]` only after establishing the buffer has ≥ 2 bytes,
exactly as the source does. -/
def check_len (buffer : List Nat) : Result Unit :=
  if buffer.length < field.LENGTH then .error .Truncated
  else if Type'.ofNat (buffer.getD field.TYPE 0) = .Pad1 then .ok ()
  else if buffer.length = field.LENGTH then .error .Truncated
  else if buffer.length < field.DATA_end (buffer.getD field.LENGTH 0) then
    .error .Truncated
  else .ok ()

/-- `Ipv6Option::option_type`: reads `data[field::TYPE]`; `none` models the
index-out-of-bounds panic on an empty buffer. -/
def option_type (buffer : List Nat) : Option Type' :=
  (buffer[field.TYPE]?).map Type'.ofNat

/-- `Ipv6Option::data_len`: reads `data[field::LENGTH]`; `none` models the
index-out-of-bounds panic on a buffer shorter than 2 bytes. -/
def data_len (buffer : List Nat) : Option Nat :=
  buffer[field.LENGTH]?

/-- `Ipv6Option::data`: returns `&data[field::DATA(self.data_len())]`; `none`
models the slicing panic when the buffer does not contain the whole range. -/
def data (buffer : List Nat) : Option (List Nat) :=
  match data_len buffer with
  | none => none
  | some len =>
    if field.DATA_end len ≤ buffer.length then
      some ((buffer.take (field.DATA_end len)).drop (field.DATA_start len))
    else none

/-- `Ipv6Option::set_option_type`: writes `data[field::TYPE] = value.into()`;
`none` models the panic on an empty buffer. -/
def set_option_type (buffer : List Nat) (value : Type') : Option (List Nat) :=
  if field.TYPE < buffer.length then
    some (buffer.set field.TYPE value.intoNat)
  else none

/-- `Ipv6Option::set_data_len`: writes `data[field::LENGTH] = value`; `none`
models the panic on a buffer shorter than 2 bytes. -/
def set_data_len (buffer : List Nat) (value : Nat) : Option (List Nat) :=
  if field.LENGTH < buffer.length then
    some (buffer.set field.LENGTH value)
  else none

/-- Writing `src` over the mutable slice `Ipv6Option::data_mut` returns,
i.e. the region `[2, 2 + data_len)`; the caller supplies `src` of exactly the
region's length.  `none` models the slicing panic of `data_mut`. -/
def write_data_region (buffer : List Nat) (src : List Nat) :
    Option (List Nat) :=
  match data_len buffer with
  | none => none
  | some len =>
    if field.DATA_end len ≤ buffer.length then
      some (buffer.take (field.DATA_start len) ++ src ++
        buffer.drop (field.DATA_end len))
    else none

/-- `enum Repr<'a>` (the hidden `__Nonexhaustive` variant is unreachable by
construction and carries no data, so it is omitted). -/
inductive Repr where
  | Pad1
  | PadN (length : Nat)
  | Unknown (type_ : Nat) (length : Nat) (data : List Nat)
deriving DecidableEq

/-- `Repr::parse`: branches on `option_type()`; `none` models a panic of the
underlying accessors on an unvalidated buffer. -/
def parse (buffer : List Nat) : Option (Result Repr) :=
  match option_type buffer with
  | none => none
  | some .Pad1 => some (.ok .Pad1)
  | some .PadN =>
      match data_len buffer with
      | none => none
      | some n => some (.ok (.PadN n))
  | some (.Unknown type_) =>
      match data_len buffer with
      | none => none
      | some n =>
        match data buffer with
        | none => none
        | some d => some (.ok (.Unknown type_ n d))

/-- `Repr::buffer_len`. -/
def Repr.buffer_len : Repr → Nat
  | .Pad1 => 1
  | .PadN length => field.DATA_end length
  | .Unknown _ length _ => field.DATA_end length

/-- `Repr::emit`: writes the representation into the buffer; `none` models a
panic (setter out of bounds, `data_mut` slicing, or `&data[..length]` when
`data` is shorter than `length`). -/
def emit (repr : Repr) (buffer : List Nat) : Option (List Nat) :=
  match repr with
  | .Pad1 => set_option_type buffer .Pad1
  | .PadN len =>
      match set_option_type buffer .PadN with
      | none => none
      | some b1 =>
        match set_data_len b1 len with
        | none => none
        | some b2 =>
          -- Ensure all padding bytes are set to zero.
          write_data_region b2 (List.replicate len 0)
  | .Unknown type_ length d =>
      match set_option_type buffer (.Unknown type_) with
      | none => none
      | some b1 =>
        match set_data_len b1 length with
        | none => none
        | some b2 =>
          if length ≤ d.length then
            write_data_region b2 (d.take length)
          else none

example : check_len [] = .error .Truncated := by decide
example : check_len [0] = .ok () := by decide
example : check_len [1, 1] = .error .Truncated := by decide
example : check_len [1, 1, 0] = .ok () := by decide
example : check_len [255, 3, 0, 0] = .error .Truncated := by decide
example : check_len [255] = .error .Truncated := by decide
example : check_len [255, 3, 0, 0, 0] = .ok () := by decide
example : parse [0] = some (.ok .Pad1) := by decide
example : parse [1, 1, 0] = some (.ok (.PadN 1)) := by decide
example : parse [255, 3, 0, 0, 0] =
    some (.ok (.Unknown 255 3 [0, 0, 0])) := by decide
example : emit .Pad1 [255] = some [0] := by decide
example : emit (.PadN 1) [255, 255, 255] = some [1, 1, 0] := by decide
example : emit (.Unknown 255 3 [0, 0, 0]) [254, 254, 254, 254, 254] =
    some [255, 3, 0, 0, 0] := by decide
example : emit (.Unknown 255 3 [0]) [254, 254, 254, 254, 254] = none := by
  decide
example : data_len [0] = none := by decide

/-! ### Helper lemmas -/

theorem Type'.ofNat_eq_pad1_iff (n : Nat) : Type'.ofNat n = .Pad1 ↔ n = 0 := by
  match n with
  | 0 => simp [Type'.ofNat]
  | 1 => simp [Type'.ofNat]
  | k + 2 => simp [Type'.ofNat]

theorem Type'.ofNat_eq_padN_iff (n : Nat) : Type'.ofNat n = .PadN ↔ n = 1 := by
  match n with
  | 0 => simp [Type'.ofNat]
  | 1 => simp [Type'.ofNat]
  | k + 2 => simp [Type'.ofNat]

theorem Type'.ofNat_unknown (n : Nat) (h0 : n ≠ 0) (h1 : n ≠ 1) :
    Type'.ofNat n = .Unknown n := by
  match n with
  | 0 => exact absurd rfl h0
  | 1 => exact absurd rfl h1
  | k + 2 => rfl

theorem check_len_ok_iff (buffer : List Nat) :
    check_len buffer = .ok () ↔
      0 < buffer.length ∧
        (buffer.getD 0 0 = 0 ∨ 2 + buffer.getD 1 0 ≤ buffer.length) := by
  unfold check_len
  simp only [field.TYPE, field.LENGTH, field.DATA_end, Type'.ofNat_eq_pad1_iff,
    List.getD_eq_getElem?_getD]
  split_ifs with h1 h2 h3 h4 <;> simp <;> omega

theorem set_option_type_cons (a : Nat) (rest : List Nat) (v : Type') :
    set_option_type (a :: rest) v = some (v.intoNat :: rest) := by
  simp [set_option_type, field.TYPE]

theorem set_data_len_cons2 (a b : Nat) (rest : List Nat) (v : Nat) :
    set_data_len (a :: b :: rest) v = some (a :: v :: rest) := by
  simp [set_data_len, field.LENGTH]

theorem data_len_cons2 (a b : Nat) (rest : List Nat) :
    data_len (a :: b :: rest) = some b := by
  simp [data_len, field.LENGTH]

theorem drop_two_add (n a b : Nat) (rest : List Nat) :
    (a :: b :: rest).drop (n + 2) = rest.drop n := by
  rw [show n + 2 = (n + 1) + 1 by omega]
  simp [List.drop_succ_cons]

theorem data_cons2 (a b : Nat) (rest : List Nat) (h : b ≤ rest.length) :
    data (a :: b :: rest) = some (rest.take b) := by
  rw [data, data_len_cons2]
  simp only [field.DATA_start, field.DATA_end, List.length_cons]
  rw [if_pos (by omega), show b + 2 = (b + 1) + 1 by omega]
  simp [List.take_succ_cons, List.drop_succ_cons]

theorem write_data_region_cons2 (a b : Nat) (rest src : List Nat)
    (h : b ≤ rest.length) :
    write_data_region (a :: b :: rest) src =
      some (a :: b :: (src ++ rest.drop b)) := by
  rw [write_data_region, data_len_cons2]
  simp only [field.DATA_start, field.DATA_end, List.length_cons]
  rw [if_pos (by omega), drop_two_add]
  simp [List.take_succ_cons]

theorem emit_Pad1_eq (buffer : List Nat) (h : 1 ≤ buffer.length) :
    emit .Pad1 buffer = some (buffer.set 0 0) := by
  unfold emit set_option_type
  simp only [field.TYPE, Type'.intoNat]
  rw [if_pos (by omega)]

theorem emit_PadN_eq (n : Nat) (buffer : List Nat) (h : 2 + n ≤ buffer.length) :
    emit (.PadN n) buffer =
      some (1 :: n :: (List.replicate n 0 ++ buffer.drop (2 + n))) := by
  cases buffer with
  | nil => simp at h
  | cons a rest0 =>
    cases rest0 with
    | nil => simp only [List.length_cons, List.length_nil] at h; omega
    | cons b rest =>
      have hn : n ≤ rest.length := by
        simp only [List.length_cons] at h; omega
      simp only [emit, set_option_type_cons, Type'.intoNat, set_data_len_cons2,
        write_data_region_cons2 1 n rest (List.replicate n 0) hn,
        (by omega : (2 : Nat) + n = n + 2), drop_two_add]

theorem emit_Unknown_eq (t l : Nat) (d buffer : List Nat)
    (hbuf : 2 + l ≤ buffer.length) (hd : l ≤ d.length) :
    emit (.Unknown t l d) buffer =
      some (t :: l :: (d.take l ++ buffer.drop (2 + l))) := by
  cases buffer with
  | nil => simp at hbuf
  | cons a rest0 =>
    cases rest0 with
    | nil => simp only [List.length_cons, List.length_nil] at hbuf; omega
    | cons b rest =>
      have hl : l ≤ rest.length := by
        simp only [List.length_cons] at hbuf; omega
      simp only [emit, set_option_type_cons, Type'.intoNat, set_data_len_cons2,
        if_pos hd, write_data_region_cons2 t l rest (d.take l) hl,
        (by omega : (2 : Nat) + l = l + 2), drop_two_add]

theorem emit_Unknown_short (t l : Nat) (d buffer : List Nat)
    (hd : d.length < l) :
    emit (.Unknown t l d) buffer = none := by
  cases buffer with
  | nil => rw [emit]; rfl
  | cons a rest0 =>
    cases rest0 with
    | nil =>
      simp only [emit, set_option_type_cons]
      simp [set_data_len, field.LENGTH]
    | cons b rest =>
      simp only [emit, set_option_type_cons, set_data_len_cons2]
      rw [if_neg (by omega)]

theorem parse_cons_pad1 (t0 : Nat) (rest : List Nat)
    (h : Type'.ofNat t0 = .Pad1) :
    parse (t0 :: rest) = some (.ok .Pad1) := by
  rw [parse]
  simp [option_type, field.TYPE, h]

theorem parse_cons_padN (t0 b : Nat) (rest : List Nat)
    (h : Type'.ofNat t0 = .PadN) :
    parse (t0 :: b :: rest) = some (.ok (.PadN b)) := by
  rw [parse]
  simp [option_type, field.TYPE, h, data_len_cons2]

theorem parse_cons_unknown (t0 b : Nat) (rest : List Nat)
    (h0 : t0 ≠ 0) (h1 : t0 ≠ 1) (hb : b ≤ rest.length) :
    parse (t0 :: b :: rest) = some (.ok (.Unknown t0 b (rest.take b))) := by
  rw [parse]
  simp [option_type, field.TYPE, Type'.ofNat_unknown t0 h0 h1,
    data_len_cons2, data_cons2 _ _ _ hb]

theorem check_len_not_ok (buffer : List Nat) (h : check_len buffer ≠ .ok ()) :
    check_len buffer = .error .Truncated := by
  cases hc : check_len buffer with
  | ok v => cases v; exact absurd hc h
  | error e => cases e; rfl

/-! ### Claim theorems -/

/-- C1: `check_len` returns Truncated on an empty buffer; returns Ok whenever
the first byte decodes to Pad1; returns Truncated for a non-Pad1 first byte
with buffer length exactly 1; and for a non-Pad1 first byte with length ≥ 2,
returns Ok iff the buffer length is at least 2 plus the length byte at
offset 1. -/
theorem check_len_spec (buffer : List Nat) :
    (buffer.length = 0 → check_len buffer = .error .Truncated)
  ∧ (0 < buffer.length → Type'.ofNat (buffer.getD 0 0) = .Pad1 →
      check_len buffer = .ok ())
  ∧ (buffer.length = 1 → Type'.ofNat (buffer.getD 0 0) ≠ .Pad1 →
      check_len buffer = .error .Truncated)
  ∧ (2 ≤ buffer.length → Type'.ofNat (buffer.getD 0 0) ≠ .Pad1 →
      (check_len buffer = .ok () ↔ 2 + buffer.getD 1 0 ≤ buffer.length)) := by
  have hiff := check_len_ok_iff buffer
  refine ⟨fun h0 => ?_, fun hpos hp => ?_, fun h1 hnp => ?_, fun h2 hnp => ?_⟩
  · apply check_len_not_ok
    intro hok
    rw [hiff] at hok
    omega
  · rw [Type'.ofNat_eq_pad1_iff] at hp
    rw [hiff]
    exact ⟨hpos, Or.inl hp⟩
  · apply check_len_not_ok
    intro hok
    rw [hiff] at hok
    simp only [ne_eq, Type'.ofNat_eq_pad1_iff] at hnp
    omega
  · rw [hiff]
    simp only [ne_eq, Type'.ofNat_eq_pad1_iff] at hnp
    constructor
    · rintro ⟨-, h | h⟩
      · exact absurd h hnp
      · exact h
    · intro h
      exact ⟨by omega, Or.inr h⟩

theorem check_len_spec_witness : check_len [0] = .ok () :=
  (check_len_spec [0]).2.1 (by decide) (by decide)

/-- C7: `buffer_len` returns 1 for Pad1 and 2 + length for PadN and
Unknown. -/
theorem buffer_len_spec :
    Repr.buffer_len .Pad1 = 1
  ∧ (∀ n : Nat, Repr.buffer_len (.PadN n) = 2 + n)
  ∧ (∀ (t l : Nat) (d : List Nat),
      Repr.buffer_len (.Unknown t l d) = 2 + l) := by
  refine ⟨rfl, fun n => ?_, fun t l d => ?_⟩ <;>
    simp [Repr.buffer_len, field.DATA_end] <;> omega

/-- C8: emitting Pad1 into a buffer of at least 1 byte writes 0x00 at offset
0 and leaves every byte at offset 1 and beyond unchanged. -/
theorem emit_Pad1_frame (buffer : List Nat) (h : 1 ≤ buffer.length) :
    ∃ out, emit .Pad1 buffer = some out ∧ out.length = buffer.length ∧
      out.getD 0 0 = 0 ∧ ∀ i, 1 ≤ i → out.getD i 0 = buffer.getD i 0 := by
  refine ⟨buffer.set 0 0, emit_Pad1_eq buffer h, by simp, ?_, ?_⟩
  · cases buffer with
    | nil => simp at h
    | cons a rest => simp [List.set_cons_zero]
  · intro i hi
    obtain ⟨j, rfl⟩ : ∃ j, i = j + 1 := ⟨i - 1, by omega⟩
    cases buffer with
    | nil => simp at h
    | cons a rest => simp [List.set_cons_zero, List.getD_cons_succ]

theorem emit_Pad1_frame_witness :
    ∃ out, emit .Pad1 [255, 7] = some out ∧
      out.length = ([255, 7] : List Nat).length ∧
      out.getD 0 0 = 0 ∧
      ∀ i, 1 ≤ i → out.getD i 0 = ([255, 7] : List Nat).getD i 0 :=
  emit_Pad1_frame [255, 7] (by decide)

/-- C5: emitting PadN(n) into any buffer of at least 2 + n bytes sets byte 0
to 0x01, byte 1 to n, and zeroes every byte of the data region [2, 2+n),
regardless of the buffer's prior contents. -/
theorem emit_PadN_spec (n : Nat) (buffer : List Nat)
    (h : 2 + n ≤ buffer.length) :
    ∃ out, emit (.PadN n) buffer = some out ∧
      out.getD 0 0 = 1 ∧ out.getD 1 0 = n ∧
      ∀ i, 2 ≤ i → i < 2 + n → out.getD i 1 = 0 := by
  refine ⟨_, emit_PadN_eq n buffer h, by simp, by simp, ?_⟩
  intro i h2 hlt
  obtain ⟨j, rfl⟩ : ∃ j, i = j + 2 := ⟨i - 2, by omega⟩
  simp only [List.getD_cons_succ]
  rw [List.getD_eq_getElem?_getD, List.getElem?_append_left (by simp; omega),
    List.getElem?_replicate]
  simp [show j < n by omega]

theorem emit_PadN_spec_witness :
    (∃ out, emit (.PadN 1) [255, 255, 255] = some out ∧
      out.getD 0 0 = 1 ∧ out.getD 1 0 = 1 ∧
      ∀ i, 2 ≤ i → i < 2 + 1 → out.getD i 1 = 0)
  ∧ emit (.PadN 1) [255, 255, 255] = some [1, 1, 0] :=
  ⟨emit_PadN_spec 1 [255, 255, 255] (by decide), by decide⟩

/-- C6: emitting Unknown{type, length, data} with enough data and a large
enough buffer sets byte 0 to the type, byte 1 to the length, and copies the
first `length` bytes of data into [2, 2+length); when data is shorter than
length, emit fails (models the Rust panic) instead of writing partially. -/
theorem emit_Unknown_spec (t l : Nat) (d buffer : List Nat) :
    (l ≤ d.length → 2 + l ≤ buffer.length →
      ∃ out, emit (.Unknown t l d) buffer = some out ∧
        out.getD 0 0 = t ∧ out.getD 1 0 = l ∧
        ∀ i, i < l → out.getD (2 + i) 0 = d.getD i 0)
  ∧ (d.length < l → emit (.Unknown t l d) buffer = none) := by
  constructor
  · intro hd hbuf
    refine ⟨_, emit_Unknown_eq t l d buffer hbuf hd, by simp, by simp, ?_⟩
    intro i hi
    rw [show 2 + i = i + 2 by omega]
    simp only [List.getD_cons_succ]
    rw [List.getD_eq_getElem?_getD, List.getElem?_append_left
      (by simp; omega), List.getElem?_take, if_pos hi,
      ← List.getD_eq_getElem?_getD]
  · exact emit_Unknown_short t l d buffer

theorem emit_Unknown_spec_witness :
    (∃ out, emit (.Unknown 255 3 [7, 8, 9]) [0, 0, 0, 0, 0] = some out ∧
      out.getD 0 0 = 255 ∧ out.getD 1 0 = 3 ∧
      ∀ i, i < 3 → out.getD (2 + i) 0 = ([7, 8, 9] : List Nat).getD i 0)
  ∧ emit (.Unknown 255 3 [7]) [0, 0, 0, 0, 0] = none :=
  ⟨(emit_Unknown_spec 255 3 [7, 8, 9] [0, 0, 0, 0, 0]).1 (by decide)
      (by decide),
   (emit_Unknown_spec 255 3 [7] [0, 0, 0, 0, 0]).2 (by decide)⟩

/-- C2: round-trip — emitting a PadN or Unknown representation into a buffer
of exactly `buffer_len` bytes and parsing the result reconstructs the same
representation (Unknown requires type not 0 or 1 and length equal to the
data's size); the PadN data bytes come out as zeros whatever the buffer
held before. -/
theorem emit_parse_roundtrip :
    (∀ (n : Nat) (buffer : List Nat),
      buffer.length = (Repr.PadN n).buffer_len →
      ∃ out, emit (.PadN n) buffer = some out ∧
        parse out = some (.ok (.PadN n)) ∧
        ∀ i, 2 ≤ i → i < out.length → out.getD i 1 = 0)
  ∧ (∀ (t l : Nat) (d buffer : List Nat),
      t ≠ 0 → t ≠ 1 → l = d.length →
      buffer.length = (Repr.Unknown t l d).buffer_len →
      ∃ out, emit (.Unknown t l d) buffer = some out ∧
        parse out = some (.ok (.Unknown t l d))) := by
  constructor
  · intro n buffer hlen
    simp only [Repr.buffer_len, field.DATA_end] at hlen
    have hdrop : buffer.drop (2 + n) = [] :=
      List.drop_eq_nil_of_le (by omega)
    rw [emit_PadN_eq n buffer (by omega), hdrop, List.append_nil]
    refine ⟨_, rfl, parse_cons_padN 1 n _ rfl, ?_⟩
    intro i h2 hlt
    simp only [List.length_cons, List.length_replicate] at hlt
    obtain ⟨j, rfl⟩ : ∃ j, i = j + 2 := ⟨i - 2, by omega⟩
    simp only [List.getD_cons_succ]
    rw [List.getD_eq_getElem?_getD, List.getElem?_replicate]
    simp [show j < n by omega]
  · intro t l d buffer h0 h1 hld hlen
    simp only [Repr.buffer_len, field.DATA_end] at hlen
    have hdrop : buffer.drop (2 + l) = [] :=
      List.drop_eq_nil_of_le (by omega)
    rw [emit_Unknown_eq t l d buffer (by omega) (by omega), hdrop,
      List.append_nil, show d.take l = d by rw [hld, List.take_length]]
    exact ⟨_, rfl, by
      rw [parse_cons_unknown t l d h0 h1 (by omega),
        show d.take l = d by rw [hld, List.take_length]]⟩

theorem emit_parse_roundtrip_witness :
    (∃ out, emit (.PadN 1) [9, 9, 9] = some out ∧
      parse out = some (.ok (.PadN 1)) ∧
      ∀ i, 2 ≤ i → i < out.length → out.getD i 1 = 0)
  ∧ (∃ out, emit (.Unknown 255 3 [4, 5, 6]) [0, 0, 0, 0, 0] = some out ∧
      parse out = some (.ok (.Unknown 255 3 [4, 5, 6]))) :=
  ⟨emit_parse_roundtrip.1 1 [9, 9, 9] (by decide),
   emit_parse_roundtrip.2 255 3 [4, 5, 6] [0, 0, 0, 0, 0]
     (by decide) (by decide) (by decide) (by decide)⟩

/-- C3 counterexample: the 1-byte Pad1 buffer [0x00] passes check_len, yet
calling data_len on it reads offset 1 out of bounds (modelled as `none`), so
not every accessor is safe on every validated buffer. -/
theorem accessor_safety_counterexample :
    check_len [0] = .ok () ∧ data_len [0] = none := by
  exact ⟨by decide, by decide⟩

/-- C3 (amended): after check_len succeeds, option_type is always in bounds;
and when the option type is not Pad1, data_len, data, and writes through the
data_mut region are in bounds as well.  (On a validated Pad1 buffer only
option_type is guaranteed.) -/
theorem accessor_safety (buffer : List Nat) (h : check_len buffer = .ok ()) :
    (∃ t, option_type buffer = some t)
  ∧ (Type'.ofNat (buffer.getD 0 0) ≠ .Pad1 →
      (∃ n, data_len buffer = some n)
    ∧ (∃ d, data buffer = some d)
    ∧ ∀ src : List Nat, ∃ out, write_data_region buffer src = some out) := by
  rw [check_len_ok_iff] at h
  cases buffer with
  | nil => simp at h
  | cons a rest =>
    constructor
    · exact ⟨Type'.ofNat a, by simp [option_type, field.TYPE]⟩
    · intro hnp
      simp only [ne_eq, Type'.ofNat_eq_pad1_iff, List.getD_cons_zero] at hnp
      have hbound : 2 + (a :: rest).getD 1 0 ≤ (a :: rest).length := by
        rcases h.2 with hz | hb
        · simp only [List.getD_cons_zero] at hz
          exact absurd hz hnp
        · exact hb
      cases rest with
      | nil => simp [List.getD] at hbound
      | cons b rest' =>
        have hb : b ≤ rest'.length := by
          simp only [List.getD_cons_succ, List.getD_cons_zero,
            List.length_cons] at hbound
          omega
        refine ⟨⟨b, data_len_cons2 a b rest'⟩,
          ⟨_, data_cons2 a b rest' hb⟩, fun src =>
          ⟨_, write_data_region_cons2 a b rest' src hb⟩⟩

theorem accessor_safety_witness :
    (∃ t, option_type [1, 1, 0] = some t)
  ∧ ((∃ n, data_len [1, 1, 0] = some n)
    ∧ (∃ d, data [1, 1, 0] = some d)
    ∧ ∀ src : List Nat, ∃ out, write_data_region [1, 1, 0] src = some out) :=
  ⟨(accessor_safety [1, 1, 0] (by decide)).1,
   (accessor_safety [1, 1, 0] (by decide)).2 (by decide)⟩

/-- C4: on any buffer accepted by check_len, parse returns Pad1 when byte 0
is 0, PadN of the length byte when byte 0 is 1, and otherwise Unknown with
the raw first byte, the length byte, and the data slice [2, 2 + length);
consequently a parsed Unknown never carries type 0 or 1. -/
theorem parse_spec (buffer : List Nat) (h : check_len buffer = .ok ()) :
    (buffer.getD 0 0 = 0 → parse buffer = some (.ok .Pad1))
  ∧ (buffer.getD 0 0 = 1 →
      parse buffer = some (.ok (.PadN (buffer.getD 1 0))))
  ∧ (buffer.getD 0 0 ≠ 0 → buffer.getD 0 0 ≠ 1 →
      parse buffer = some (.ok (.Unknown (buffer.getD 0 0) (buffer.getD 1 0)
        ((buffer.take (2 + buffer.getD 1 0)).drop 2))))
  ∧ (∀ t l d, parse buffer = some (.ok (.Unknown t l d)) →
      t ≠ 0 ∧ t ≠ 1) := by
  rw [check_len_ok_iff] at h
  cases buffer with
  | nil => simp at h
  | cons a rest =>
    simp only [List.getD_cons_zero]
    have hpad : a = 0 → parse (a :: rest) = some (.ok .Pad1) := fun h0 =>
      parse_cons_pad1 a rest (by rw [h0]; rfl)
    have hrest : a ≠ 0 →
        2 + (a :: rest).getD 1 0 ≤ (a :: rest).length := by
      intro h0
      rcases h.2 with hz | hb
      · simp only [List.getD_cons_zero] at hz
        exact absurd hz h0
      · exact hb
    refine ⟨hpad, ?_, ?_, ?_⟩
    · intro h1
      subst h1
      have hbound := hrest (by omega)
      cases rest with
      | nil => simp [List.getD] at hbound
      | cons b rest' =>
        simpa using parse_cons_padN 1 b rest' rfl
    · intro h0 h1
      have hbound := hrest h0
      cases rest with
      | nil => simp [List.getD] at hbound
      | cons b rest' =>
        have hb : b ≤ rest'.length := by
          simp only [List.getD_cons_succ, List.getD_cons_zero,
            List.length_cons] at hbound
          omega
        rw [parse_cons_unknown a b rest' h0 h1 hb]
        simp only [List.getD_cons_succ, List.getD_cons_zero]
        rw [show 2 + b = (b + 1) + 1 by omega]
        simp [List.take_succ_cons, List.drop_succ_cons]
    · intro t l d hp
      by_cases h0 : a = 0
      · rw [hpad h0] at hp
        simp at hp
      · by_cases h1 : a = 1
        · have hbound := hrest h0
          cases rest with
          | nil => simp [List.getD] at hbound
          | cons b rest' =>
            subst h1
            rw [parse_cons_padN 1 b rest' rfl] at hp
            simp at hp
        · have hbound := hrest h0
          cases rest with
          | nil => simp [List.getD] at hbound
          | cons b rest' =>
            have hb : b ≤ rest'.length := by
              simp only [List.getD_cons_succ, List.getD_cons_zero,
                List.length_cons] at hbound
              omega
            rw [parse_cons_unknown a b rest' h0 h1 hb] at hp
            simp only [Option.some.injEq, Except.ok.injEq,
              Repr.Unknown.injEq] at hp
            obtain ⟨rfl, -, -⟩ := hp
            exact ⟨h0, h1⟩

theorem parse_spec_witness :
    parse [255, 3, 0, 0, 0] = some (.ok (.Unknown 255 3 [0, 0, 0])) :=
  (parse_spec [255, 3, 0, 0, 0] (by decide)).2.2.1 (by decide) (by decide)

/-- C9 counterexample: the claim fails for same-size buffers larger than
buffer_len — emitting Pad1 into the 2-byte buffers [0,5] and [0,7]
(both of size ≥ buffer_len Pad1 = 1) leaves byte 1 unchanged, so the
resulting byte sequences differ. -/
theorem emit_deterministic_counterexample :
    ([0, 5] : List Nat).length = ([0, 7] : List Nat).length
  ∧ Repr.buffer_len .Pad1 ≤ ([0, 5] : List Nat).length
  ∧ emit .Pad1 [0, 5] ≠ emit .Pad1 [0, 7] := by decide

/-- C9 (amended): emitting the same representation into two buffers of size
exactly `buffer_len`, whatever their prior contents, yields identical
results. -/
theorem emit_deterministic (r : Repr) (b1 b2 : List Nat)
    (h1 : b1.length = r.buffer_len) (h2 : b2.length = r.buffer_len) :
    emit r b1 = emit r b2 := by
  cases r with
  | Pad1 =>
    simp only [Repr.buffer_len] at h1 h2
    cases b1 with
    | nil => simp at h1
    | cons x xs =>
      cases b2 with
      | nil => simp at h2
      | cons y ys =>
        simp only [List.length_cons] at h1 h2
        have hxs : xs = [] := List.eq_nil_of_length_eq_zero (by omega)
        have hys : ys = [] := List.eq_nil_of_length_eq_zero (by omega)
        subst hxs hys
        rw [emit_Pad1_eq _ (by simp), emit_Pad1_eq _ (by simp)]
        rfl
  | PadN n =>
    simp only [Repr.buffer_len, field.DATA_end] at h1 h2
    rw [emit_PadN_eq n b1 (by omega), emit_PadN_eq n b2 (by omega),
      List.drop_eq_nil_of_le (by omega), List.drop_eq_nil_of_le (by omega)]
  | Unknown t l d =>
    simp only [Repr.buffer_len, field.DATA_end] at h1 h2
    by_cases hd : l ≤ d.length
    · rw [emit_Unknown_eq t l d b1 (by omega) hd,
        emit_Unknown_eq t l d b2 (by omega) hd,
        List.drop_eq_nil_of_le (by omega), List.drop_eq_nil_of_le (by omega)]
    · rw [emit_Unknown_short t l d b1 (by omega),
        emit_Unknown_short t l d b2 (by omega)]

theorem emit_deterministic_witness :
    emit (.PadN 1) [9, 9, 9] = emit (.PadN 1) [0, 1, 2] :=
  emit_deterministic (.PadN 1) [9, 9, 9] [0, 1, 2] (by decide) (by decide)

/-- C10: parse never produces an error value — whenever its byte accesses
are in bounds it returns some Ok result, and on any buffer accepted by
check_len it does return such a result, so the error branch of the raw
view's Display implementation is unreachable. -/
theorem parse_never_err (buffer : List Nat) :
    (∀ res, parse buffer = some res → ∃ r, res = Except.ok r)
  ∧ (check_len buffer = .ok () → ∃ r, parse buffer = some (.ok r)) := by
  constructor
  · intro res hres
    unfold parse at hres
    cases ho : option_type buffer with
    | none => rw [ho] at hres; simp at hres
    | some t =>
      rw [ho] at hres
      cases t with
      | Pad1 =>
        simp only [Option.some.injEq] at hres
        exact ⟨.Pad1, hres.symm⟩
      | PadN =>
        cases hn : data_len buffer with
        | none => rw [hn] at hres; simp at hres
        | some n =>
          rw [hn] at hres
          simp only [Option.some.injEq] at hres
          exact ⟨.PadN n, hres.symm⟩
      | Unknown t' =>
        cases hn : data_len buffer with
        | none => rw [hn] at hres; simp at hres
        | some n =>
          rw [hn] at hres
          cases hdd : data buffer with
          | none => rw [hdd] at hres; simp at hres
          | some d =>
            rw [hdd] at hres
            simp only [Option.some.injEq] at hres
            exact ⟨.Unknown t' n d, hres.symm⟩
  · intro hok
    rw [check_len_ok_iff] at hok
    cases buffer with
    | nil => simp at hok
    | cons a rest =>
      by_cases h0 : a = 0
      · exact ⟨.Pad1, parse_cons_pad1 a rest (by rw [h0]; rfl)⟩
      · have hbound : 2 + (a :: rest).getD 1 0 ≤ (a :: rest).length := by
          rcases hok.2 with hz | hb
          · simp only [List.getD_cons_zero] at hz
            exact absurd hz h0
          · exact hb
        cases rest with
        | nil => simp [List.getD] at hbound
        | cons b rest' =>
          have hb : b ≤ rest'.length := by
            simp only [List.getD_cons_succ, List.getD_cons_zero,
              List.length_cons] at hbound
            omega
          by_cases h1 : a = 1
          · exact ⟨.PadN b, parse_cons_padN a b rest' (by rw [h1]; rfl)⟩
          · exact ⟨_, parse_cons_unknown a b rest' h0 h1 hb⟩

theorem parse_never_err_witness :
    (∃ r, (Except.ok Repr.Pad1 : Result Repr) = Except.ok r)
  ∧ (∃ r, parse [0] = some (.ok r)) :=
  ⟨(parse_never_err [0]).1 (.ok .Pad1) (by decide),
   (parse_never_err [0]).2 (by decide)⟩

end Ipv6Wire
